import Mathlib

/-!
Verification of the session line-model, selection and persistence engine of
claude-code-session-manager (src/session-manager-v1.1.ts).

JSON values are modelled by the inductive JSVal (numeric literals as integers;
no claim involves numeric fine structure), JavaScript undefined by the none of
Option JSVal, and the external JSON.parse library routine by an oracle
parameter of type String → Option JSVal, where none models a parse exception.
The source's comparisons of a parsed kind are always against string literals
(strict equality, under which no non-string JSON value equals a string), so
they are embedded as specialized string tests rather than a deep equality,
matching JavaScript === exactly at every call site.
-/

inductive JSVal where
  | null
  | bool (b : Bool)
  | num (n : Int)
  | str (s : String)
  | arr (xs : List JSVal)
  | obj (fields : List (String × JSVal))
deriving Repr

/-- Truthiness of a JSON value under JavaScript coercion: false, 0 and the
empty string are falsy; every object and array is truthy. -/
def JSVal.truthy : JSVal → Bool
  | .null => false
  | .bool b => b
  | .num n => n != 0
  | .str s => s != ""
  | .arr _ => true
  | .obj _ => true

/-- Truthiness of a possibly-undefined value (undefined, modelled as none, is
falsy). -/
def truthyO : Option JSVal → Bool
  | none => false
  | some v => v.truthy

/-- Field lookup in a JSON object.  With duplicate keys JSON.parse keeps the
last occurrence, so the lookup scans from the right. -/
def getField (fs : List (String × JSVal)) (k : String) : Option JSVal :=
  (fs.reverse.find? (fun p => p.1 == k)).map (fun p => p.2)

/-- JavaScript property access v.k on a value known not to be null (access on
null throws a TypeError; callers handle that case separately): objects expose
their fields, every other value yields undefined. -/
def propOf : JSVal → String → Option JSVal
  | .obj fs, k => getField fs k
  | _, _ => none

/-- Optional chaining v?.k : undefined when v is undefined or null, plain
property access otherwise. -/
def optChain : Option JSVal → String → Option JSVal
  | none, _ => none
  | some .null, _ => none
  | some v, k => propOf v k

/-- The JavaScript a || b operator on possibly-undefined values: a when a is
truthy, otherwise b. -/
def jsOr (a b : Option JSVal) : Option JSVal :=
  if truthyO a then a else b

/-- Joins strings with a separator exactly as JavaScript Array.prototype.join:
the empty list gives the empty string; no leading or trailing separator. -/
def joinSep (sep : String) : List String → String
  | [] => ""
  | [s] => s
  | s :: rest => s ++ sep ++ joinSep sep rest

mutual
/-- JavaScript String() coercion of a JSON value, applied by the join at line
83 of session-manager-v1.1.ts when a kept content item's text field is not a
string: arrays join their coerced elements with commas, objects coerce to the
fixed object placeholder. -/
def jsToStr : JSVal → String
  | .null => "null"
  | .bool b => cond b "true" "false"
  | .num n => toString n
  | .str s => s
  | .arr xs => joinSep "," (jsArrElems xs)
  | .obj _ => "[object Object]"
/-- Elementwise String() coercion inside an array (a null element coerces to
the empty string). -/
def jsArrElems : List JSVal → List String
  | [] => []
  | .null :: xs => "" :: jsArrElems xs
  | x :: xs => jsToStr x :: jsArrElems xs
end

/-- JSON string escaping for JSON.stringify (the common escapes; no claim
depends on this serialization). -/
def escapeChars : List Char → List Char
  | [] => []
  | '"' :: r => '\\' :: '"' :: escapeChars r
  | '\\' :: r => '\\' :: '\\' :: escapeChars r
  | '\n' :: r => '\\' :: 'n' :: escapeChars r
  | '\t' :: r => '\\' :: 't' :: escapeChars r
  | '\r' :: r => '\\' :: 'r' :: escapeChars r
  | c :: r => c :: escapeChars r

/-- JSON string escaping lifted to String. -/
def escapeJsonStr (s : String) : String := String.mk (escapeChars s.data)

mutual
/-- Models the JSON.stringify call at line 85 of session-manager-v1.1.ts on a
JSON value. -/
def jsStringify : JSVal → String
  | .null => "null"
  | .bool b => cond b "true" "false"
  | .num n => toString n
  | .str s => "\"" ++ escapeJsonStr s ++ "\""
  | .arr xs => "[" ++ joinSep "," (jsStringifyList xs) ++ "]"
  | .obj fs => "\x7b" ++ joinSep "," (jsStringifyFields fs) ++ "\x7d"
/-- Serialization of the elements of a JSON array. -/
def jsStringifyList : List JSVal → List String
  | [] => []
  | x :: xs => jsStringify x :: jsStringifyList xs
/-- Serialization of the fields of a JSON object. -/
def jsStringifyFields : List (String × JSVal) → List String
  | [] => []
  | (k, v) :: fs => ("\"" ++ escapeJsonStr k ++ "\":" ++ jsStringify v) :: jsStringifyFields fs
end

/-- Strict-equality test of a possibly-undefined value against a string literal
(JavaScript ===: true only for the identical string; undefined and every
non-string value compare false). -/
def isTypeStr (v : Option JSVal) (k : String) : Bool :=
  match v with
  | some (.str s) => s == k
  | _ => false

/-- Whether a JSON value is the null literal. -/
def isNull : JSVal → Bool
  | .null => true
  | _ => false

/-- Embeds line 70 of session-manager-v1.1.ts, the kind extraction
parsed.type || parsed.message?.type || parsed.message?.role || 'unknown'
for a non-null parsed value (a null parsed value throws at the first property
access; processJson handles that case). -/
def extractKind (parsed : JSVal) : JSVal :=
  let msg := propOf parsed "message"
  let chain := jsOr (jsOr (propOf parsed "type") (optChain msg "type")) (optChain msg "role")
  match chain with
  | some v => if v.truthy then v else .str "unknown"
  | none => .str "unknown"

/-- Embeds the content extraction at lines 71-86 of session-manager-v1.1.ts:
content starts as the empty string and the four branches probe a top-level
string content field, a nested message string content field, a nested array
content field (kept items joined by newlines, with the complex-content
placeholder when the join is empty), and finally any other truthy nested
content, which is serialized.  The error result models the TypeError thrown
when the filter at line 81 accesses item.type on a null array element. -/
def extractContent (parsed : JSVal) : Except Unit String :=
  let msg := propOf parsed "message"
  match propOf parsed "content" with
  | some (.str s) => .ok s
  | _ =>
    match optChain msg "content" with
    | some (.str s) => .ok s
    | some (.arr items) =>
      if items.any isNull then .error ()
      else
        let texts := (items.filter (fun item =>
            isTypeStr (propOf item "type") "text" && truthyO (propOf item "text"))).map
          (fun item => jsToStr ((propOf item "text").getD .null))
        let joined := joinSep "\n" texts
        .ok (if joined == "" then "[Complex content]" else joined)
    | mc => if truthyO mc then .ok (jsStringify (mc.getD .null)) else .ok ""

/-- Embeds the whole try-block body of lines 66-91 of session-manager-v1.1.ts:
the extraction runs inside one try, so a thrown TypeError (null parsed value at
line 70, or a null element of a content array at line 81) discards both the
extracted kind and the content, and the line falls through to the catch at line
92 unchanged. -/
def processJson (parsed : JSVal) : Except Unit (JSVal × String) :=
  if isNull parsed then .error ()
  else
    match extractContent parsed with
    | .error e => .error e
    | .ok c => .ok (extractKind parsed, c)

/-- Embeds line 90 of session-manager-v1.1.ts: membership of the extracted kind
in the four recognized message kinds under strict equality (a non-string kind
is never a member). -/
def isMsgKind : JSVal → Bool
  | .str s => s == "user" || s == "assistant" || s == "message" || s == "system"
  | _ => false

/-- One parsed line of the session file, embedding interface SessionLine of
lines 12-19 of session-manager-v1.1.ts.  The field named type is the spec's
recordKind and the field named content is the spec's previewText; none models
the field being absent. -/
structure SessionLine where
  index : Nat
  line : String
  type : Option JSVal
  content : Option String
  selected : Bool
  isMessage : Bool
deriving Repr

/-- Embeds the blank test at line 62 of session-manager-v1.1.ts: the test
!line || line.trim() === '' holds exactly when every character of the line is
whitespace. -/
def isBlank (line : String) : Bool := line.data.all (fun c => c.isWhitespace)

/-- Embeds the per-line mapping body at lines 54-97 of session-manager-v1.1.ts,
with JSON.parse supplied as an oracle (none models a parse exception). -/
def parseLine (jsonParse : String → Option JSVal) (index : Nat) (line : String) : SessionLine :=
  let base : SessionLine :=
    { index := index, line := line, type := none, content := none,
      selected := true, isMessage := false }
  if isBlank line then base
  else
    match jsonParse line with
    | none => base
    | some parsed =>
      match processJson parsed with
      | .error _ => base
      | .ok kc =>
        { base with type := some kc.1, content := some kc.2, isMessage := isMsgKind kc.1 }

/-- Splits a character list at every line break, embedding the regex split at
line 51 of session-manager-v1.1.ts: a separator is a lone newline or a
carriage-return-newline pair (a lone carriage return is ordinary content). -/
def splitLinesCh : List Char → List (List Char)
  | [] => [[]]
  | '\r' :: '\n' :: rest => [] :: splitLinesCh rest
  | '\n' :: rest => [] :: splitLinesCh rest
  | c :: rest =>
    match splitLinesCh rest with
    | [] => [[c]]
    | l :: ls => (c :: l) :: ls

/-- Number of line-break separators in a character list. -/
def countSep : List Char → Nat
  | [] => 0
  | '\r' :: '\n' :: rest => countSep rest + 1
  | '\n' :: rest => countSep rest + 1
  | _ :: rest => countSep rest

/-- Replaces every carriage-return-newline pair by a lone newline. -/
def crlfToLf : List Char → List Char
  | [] => []
  | '\r' :: '\n' :: rest => '\n' :: crlfToLf rest
  | c :: rest => c :: crlfToLf rest

/-- Whether the text contains a carriage-return-newline pair. -/
def hasCRLF : List Char → Bool
  | [] => false
  | '\r' :: '\n' :: _ => true
  | _ :: rest => hasCRLF rest

/-- The line split at line 51 of session-manager-v1.1.ts, on String. -/
def splitLines (s : String) : List String := (splitLinesCh s.data).map String.mk

/-- Carriage-return-newline normalization on String. -/
def crlfToLfS (s : String) : String := String.mk (crlfToLf s.data)

/-- Index-passing map, embedding the call rawLines.map((line, index) => ...) at
line 54 of session-manager-v1.1.ts. -/
def mapWithIndex (f : Nat → String → SessionLine) : Nat → List String → List SessionLine
  | _, [] => []
  | i, x :: xs => f i x :: mapWithIndex f (i + 1) xs

/-- Embeds the parsing phase at lines 50-97 of session-manager-v1.1.ts (the
file-system existence check and read are external collaborators; the loaded
text is the content argument). -/
def initSession (jsonParse : String → Option JSVal) (content : String) : List SessionLine :=
  mapWithIndex (parseLine jsonParse) 0 (splitLines content)

/-- Embeds the select-all and deselect-all branches at lines 227 and 232 of
session-manager-v1.1.ts. -/
def toggleAll (value : Bool) (lines : List SessionLine) : List SessionLine :=
  lines.map (fun l => { l with selected := value })

/-- Embeds the selection-update loop at lines 262-266 of
session-manager-v1.1.ts: every message line's selected flag becomes membership
of its index in the checked set; non-message lines are not touched. -/
def selectIndividual (indices : List Nat) (lines : List SessionLine) : List SessionLine :=
  lines.map (fun l => if l.isMessage then { l with selected := indices.contains l.index } else l)

/-- Embeds the loop at lines 287-295 of session-manager-v1.1.ts: sets the
selected flag on every line whose kind strictly equals the chosen type string
(the menu offers the string keys of the statistics table) and counts the
matched lines. -/
def selectByType (msgType : String) (shouldSelect : Bool) (lines : List SessionLine) :
    List SessionLine × Nat :=
  (lines.map (fun l => if isTypeStr l.type msgType then { l with selected := shouldSelect } else l),
   (lines.filter (fun l => isTypeStr l.type msgType)).length)

/-- In-memory manager state: the parsed lines and the originalContent field of
lines 32-33 of session-manager-v1.1.ts. -/
structure ManagerState where
  lines : List SessionLine
  originalContent : String
deriving Repr

/-- Durable storage visible to saveChanges: the live session file and the
backup directory (newest backup first), abstracting the file-system
collaborator. -/
structure Storage where
  live : String
  backups : List (String × String)
deriving Repr

/-- Embeds saveChanges at lines 303-347 of session-manager-v1.1.ts.  confirm is
the inquirer confirmation answer; backupOk and liveOk model success of the two
fs.writeFile calls in order (a failed write throws into the catch at line 341
and is modelled as leaving the failed target unchanged); backupName models the
timestamped backup path of line 328.  Returns the resulting state, the
resulting storage and whether the save succeeded. -/
def saveChanges (confirm : Bool) (backupOk liveOk : Bool) (backupName : String)
    (st : ManagerState) (sto : Storage) : ManagerState × Storage × Bool :=
  if !confirm then (st, sto, false)
  else if !backupOk then (st, sto, false)
  else
    let sto1 : Storage := { sto with backups := (backupName, st.originalContent) :: sto.backups }
    let output := joinSep "\n" ((st.lines.filter (fun l => l.selected)).map (fun l => l.line))
    if !liveOk then (st, sto1, false)
    else ({ st with originalContent := output }, { live := output, backups := sto1.backups }, true)

/-- A JSON.parse oracle fixing the concrete inputs used in witnesses and
counterexamples, assigning each the value real JSON parsing gives on it. -/
def jsonParseEx : String → Option JSVal := fun s =>
  if s = "null" then some .null
  else if s = "1" then some (.num 1)
  else if s = "\x7b\"type\":\"\"\x7d" then some (.obj [("type", .str "")])
  else if s = "\x7b\"type\":\"user\"\x7d" then some (.obj [("type", .str "user")])
  else none

/-- A fresh manager state as loaded from the given content. -/
def freshState (jsonParse : String → Option JSVal) (content : String) : ManagerState :=
  { lines := initSession jsonParse content, originalContent := content }

/-- The round-trip scenario of the spec: load the content, then save
immediately with every line still selected, confirmed, both writes
succeeding. -/
def saveAll (jsonParse : String → Option JSVal) (content : String) :
    ManagerState × Storage × Bool :=
  saveChanges true true true "backup" (freshState jsonParse content)
    { live := content, backups := [] }

/-- A sample message line, as parsing a user record produces. -/
def mkMsg : SessionLine :=
  { index := 0, line := "m", type := some (.str "user"), content := some "hi",
    selected := true, isMessage := true }

/-- A sample non-message raw line. -/
def mkRaw : SessionLine :=
  { index := 1, line := "raw", type := none, content := none,
    selected := true, isMessage := false }

/-- Joining a list of character lines with newline separators, the character
level view of the join at line 332 of session-manager-v1.1.ts. -/
def joinNl : List (List Char) → List Char
  | [] => []
  | [l] => l
  | l :: ls => l ++ '\n' :: joinNl ls

/-- Whether a possibly-undefined value is a string, the typeof tests at lines
74 and 76 of session-manager-v1.1.ts. -/
def isStrO : Option JSVal → Bool
  | some (.str _) => true
  | _ => false

/-- Whether a possibly-undefined value is an array, the Array.isArray test at
line 78 of session-manager-v1.1.ts. -/
def isArrO : Option JSVal → Bool
  | some (.arr _) => true
  | _ => false

/-- The condition under which the content extraction of lines 71-86 of
session-manager-v1.1.ts throws: the first two branches fail, the nested
message content field is an array, and that array holds a null element (whose
property access inside the filter at line 81 raises a TypeError). -/
def contentArrayNull (v : JSVal) : Bool :=
  match propOf v "content" with
  | some (.str _) => false
  | _ =>
    match optChain (propOf v "message") "content" with
    | some (.arr items) => items.any isNull
    | _ => false

theorem splitLinesCh_length : ∀ l, (splitLinesCh l).length = countSep l + 1 := by
  intro l
  induction l using splitLinesCh.induct with
  | case1 => rfl
  | case2 rest ih => simpa [splitLinesCh, countSep] using ih
  | case3 rest ih => simpa [splitLinesCh, countSep] using ih
  | case4 c rest h1 h2 hnil ih => rw [hnil] at ih; simp at ih
  | case5 c rest h1 h2 l2 ls heq ih => simp_all [splitLinesCh, countSep]

theorem splitLinesCh_ne_nil (l : List Char) : splitLinesCh l ≠ [] := by
  intro h
  have hlen := splitLinesCh_length l
  rw [h] at hlen
  simp at hlen

theorem joinNl_cons_head (c : Char) (l : List Char) (ls : List (List Char)) :
    joinNl ((c :: l) :: ls) = c :: joinNl (l :: ls) := by
  cases ls <;> simp [joinNl]

theorem joinNl_splitLinesCh : ∀ l, joinNl (splitLinesCh l) = crlfToLf l := by
  intro l
  induction l using splitLinesCh.induct with
  | case1 => rfl
  | case2 rest ih =>
    obtain ⟨h, t, heq⟩ := List.exists_cons_of_ne_nil (splitLinesCh_ne_nil rest)
    rw [heq] at ih
    simp [splitLinesCh, crlfToLf, heq, joinNl, ih]
  | case3 rest ih =>
    obtain ⟨h, t, heq⟩ := List.exists_cons_of_ne_nil (splitLinesCh_ne_nil rest)
    rw [heq] at ih
    simp [splitLinesCh, crlfToLf, heq, joinNl, ih]
  | case4 c rest h1 h2 hnil ih => exact absurd hnil (splitLinesCh_ne_nil rest)
  | case5 c rest h1 h2 l2 ls heq ih =>
    rw [heq] at ih
    have hs : splitLinesCh (c :: rest) = (c :: l2) :: ls := by
      simp_all [splitLinesCh]
    have hc : crlfToLf (c :: rest) = c :: crlfToLf rest := by
      simp_all [crlfToLf]
    rw [hs, hc, joinNl_cons_head, ih]

theorem crlfToLf_of_no_crlf : ∀ l, hasCRLF l = false → crlfToLf l = l := by
  intro l
  induction l using crlfToLf.induct with
  | case1 => intro _; rfl
  | case2 rest ih => intro h; simp [hasCRLF] at h
  | case3 c rest h1 ih =>
    intro h
    have hr : hasCRLF rest = false := by
      cases hcr : hasCRLF rest with
      | false => rfl
      | true => simp_all [hasCRLF]
    have hcc : crlfToLf (c :: rest) = c :: crlfToLf rest := by
      simp_all [crlfToLf]
    rw [hcc, ih hr]

theorem parseLine_fields (jp : String → Option JSVal) (i : Nat) (s : String) :
    (parseLine jp i s).selected = true ∧ (parseLine jp i s).line = s ∧
      (parseLine jp i s).index = i := by
  simp only [parseLine]
  split
  · exact ⟨rfl, rfl, rfl⟩
  · split
    · exact ⟨rfl, rfl, rfl⟩
    · split <;> exact ⟨rfl, rfl, rfl⟩

theorem mapWithIndex_length (f : Nat → String → SessionLine) :
    ∀ (xs : List String) (n : Nat), (mapWithIndex f n xs).length = xs.length
  | [], _ => rfl
  | x :: xs, n => by simp [mapWithIndex, mapWithIndex_length f xs]

theorem mapWithIndex_parseLine_line (jp : String → Option JSVal) :
    ∀ (xs : List String) (n : Nat),
      (mapWithIndex (parseLine jp) n xs).map (fun l => l.line) = xs
  | [], _ => rfl
  | x :: xs, n => by
    simp [mapWithIndex, mapWithIndex_parseLine_line jp xs, (parseLine_fields jp n x).2.1]

theorem mapWithIndex_parseLine_selected (jp : String → Option JSVal) :
    ∀ (xs : List String) (n : Nat) (l : SessionLine),
      l ∈ mapWithIndex (parseLine jp) n xs → l.selected = true
  | [], _, l => by simp [mapWithIndex]
  | x :: xs, n, l => by
    intro hl
    rcases List.mem_cons.mp hl with h | h
    · rw [h]; exact (parseLine_fields jp n x).1
    · exact mapWithIndex_parseLine_selected jp xs (n + 1) l h

theorem initSession_filter_selected (jp : String → Option JSVal) (content : String) :
    (initSession jp content).filter (fun l => l.selected) = initSession jp content :=
  List.filter_eq_self.mpr (fun l hl => mapWithIndex_parseLine_selected jp _ _ l hl)

theorem joinSep_map_mk : ∀ css : List (List Char),
    joinSep "\n" (css.map String.mk) = String.mk (joinNl css)
  | [] => rfl
  | [l] => rfl
  | l :: l2 :: ls => by
    have ih := joinSep_map_mk (l2 :: ls)
    show String.mk l ++ "\n" ++ joinSep "\n" ((l2 :: ls).map String.mk) = _
    rw [ih]
    apply String.ext
    simp only [String.data_append, List.append_assoc]
    rfl

theorem joinSep_splitLines (s : String) :
    joinSep "\n" (splitLines s) = crlfToLfS s := by
  unfold splitLines crlfToLfS
  rw [joinSep_map_mk, joinNl_splitLinesCh]

theorem saveAll_live (jp : String → Option JSVal) (content : String) :
    (saveAll jp content).2.1.live = crlfToLfS content ∧ (saveAll jp content).2.2 = true := by
  unfold saveAll saveChanges freshState
  simp only [Bool.not_true, Bool.false_eq_true, if_false]
  rw [initSession_filter_selected]
  unfold initSession
  rw [mapWithIndex_parseLine_line, joinSep_splitLines]
  exact ⟨rfl, trivial⟩

theorem extractContent_error_iff (v : JSVal) :
    extractContent v = .error () ↔ contentArrayNull v = true := by
  unfold extractContent contentArrayNull
  rcases h1 : propOf v "content" with _ | pv
  case none =>
    rcases h2 : optChain (propOf v "message") "content" with _ | mv
    case none => simp [h1, h2, truthyO]
    case some =>
      cases mv <;> simp only [h1, h2] <;> (try split) <;> simp_all [truthyO]
  case some =>
    cases pv <;> (try simp only [h1]; simp; done) <;>
      (rcases h2 : optChain (propOf v "message") "content" with _ | mv
       · simp only [h1, h2]; simp [truthyO]
       · cases mv <;> simp only [h1, h2] <;> (try split) <;> simp_all [truthyO])

theorem processJson_ok (v : JSVal) (hn : isNull v = false) (ha : contentArrayNull v = false) :
    ∃ c, processJson v = .ok (extractKind v, c) := by
  unfold processJson
  simp only [hn, Bool.false_eq_true, if_false]
  cases he : extractContent v with
  | error e =>
    cases e
    rw [extractContent_error_iff] at he
    rw [ha] at he
    cases he
  | ok c => exact ⟨c, rfl⟩

theorem processJson_error_iff (v : JSVal) :
    processJson v = .error () ↔ (isNull v = true ∨ contentArrayNull v = true) := by
  unfold processJson
  cases hn : isNull v with
  | true => simp
  | false =>
    simp only [Bool.false_eq_true, if_false]
    cases he : extractContent v with
    | error e =>
      cases e
      simp [(extractContent_error_iff v).mp he]
    | ok c =>
      simp only [false_or]
      constructor
      · intro h; cases h
      · intro hca
        have hee := (extractContent_error_iff v).mpr hca
        rw [hee] at he
        cases he

theorem parseLine_parsed (jp : String → Option JSVal) (i : Nat) (line : String) (v : JSVal)
    (hb : isBlank line = false) (hp : jp line = some v) :
    (parseLine jp i line).type =
      (match processJson v with | .error _ => none | .ok kc => some kc.1)
  ∧ (parseLine jp i line).content =
      (match processJson v with | .error _ => none | .ok kc => some kc.2)
  ∧ (parseLine jp i line).isMessage =
      (match processJson v with | .error _ => false | .ok kc => isMsgKind kc.1) := by
  simp only [parseLine, hb, Bool.false_eq_true, if_false, hp]
  cases hpj : processJson v <;> simp

theorem isTypeStr_iff (t : Option JSVal) (k : String) :
    isTypeStr t k = true ↔ t = some (.str k) := by
  cases t with
  | none => simp [isTypeStr]
  | some v => cases v <;> simp [isTypeStr]

theorem extractContent_default (v : JSVal)
    (h1 : isStrO (propOf v "content") = false)
    (h2 : isStrO (optChain (propOf v "message") "content") = false)
    (h3 : isArrO (optChain (propOf v "message") "content") = false)
    (h4 : truthyO (optChain (propOf v "message") "content") = false) :
    extractContent v = .ok "" := by
  unfold extractContent
  rcases hc1 : propOf v "content" with _ | pv
  · simp only [hc1]
    rcases hc2 : optChain (propOf v "message") "content" with _ | mv
    · simp only [hc2]
      simp [truthyO]
    · rw [hc2] at h2 h3 h4
      cases mv <;> simp_all [isStrO, isArrO, truthyO]
  · rw [hc1] at h1
    simp only [hc1]
    cases pv
    case str s => simp [isStrO] at h1
    all_goals
      rcases hc2 : optChain (propOf v "message") "content" with _ | mv
      · simp only [hc2]
        simp [truthyO]
      · rw [hc2] at h2 h3 h4
        cases mv <;> simp_all [isStrO, isArrO, truthyO]

/-- Claim C1: during save the live session file is never overwritten without a
durable backup: when the backup write fails, the live file keeps its pre-save
content, the backup directory is unchanged and the in-memory state is
unchanged; when the backup write succeeds but the live write then fails, the
fully written backup holding the pre-edit original content remains on storage
while the live file and the in-memory state stay unchanged. -/
theorem C1_backup_before_write (st : ManagerState) (sto : Storage) (bk : String)
    (liveOk : Bool) :
    ((saveChanges true false liveOk bk st sto).2.1.live = sto.live
   ∧ (saveChanges true false liveOk bk st sto).2.1.backups = sto.backups
   ∧ (saveChanges true false liveOk bk st sto).1 = st)
  ∧ ((saveChanges true true false bk st sto).2.1.live = sto.live
   ∧ (bk, st.originalContent) ∈ (saveChanges true true false bk st sto).2.1.backups
   ∧ (saveChanges true true false bk st sto).1 = st) := by
  simp [saveChanges]

/-- Claim C2 counterexample: parse-then-save-all on the two-line input joined
by a CRLF yields output that differs from the input beyond any
trailing-newline normalization (the interior CRLF collapses to a lone
newline). -/
theorem C2_roundtrip_counterexample :
    ¬ ((saveAll jsonParseEx "a\r\nb").2.1.live = "a\r\nb"
     ∨ (saveAll jsonParseEx "a\r\nb").2.1.live ++ "\n" = "a\r\nb"
     ∨ (saveAll jsonParseEx "a\r\nb").2.1.live = "a\r\nb" ++ "\n") := by
  decide

/-- Claim C2 (amended): parsing then immediately saving with every line
selected and the save confirmed succeeds and writes back the original content
with every CRLF line separator normalized to a lone LF; when the input
contains no CRLF pair the output is byte-identical to the input (in
particular a trailing newline is reproduced exactly, neither dropped nor
added). -/
theorem C2_roundtrip_amended (jp : String → Option JSVal) (content : String) :
    (saveAll jp content).2.1.live = crlfToLfS content
  ∧ (saveAll jp content).2.2 = true
  ∧ (hasCRLF content.data = false → (saveAll jp content).2.1.live = content) := by
  obtain ⟨h1, h2⟩ := saveAll_live jp content
  refine ⟨h1, h2, fun hno => ?_⟩
  rw [h1]
  unfold crlfToLfS
  rw [crlfToLf_of_no_crlf content.data hno]

/-- Witness for C2_roundtrip_amended at a concrete LF-only two-line input. -/
theorem C2_roundtrip_amended_witness :
    hasCRLF "a\nb".data = false ∧ (saveAll jsonParseEx "a\nb").2.1.live = "a\nb" :=
  ⟨by decide, (C2_roundtrip_amended jsonParseEx "a\nb").2.2 (by decide)⟩

/-- Claim C3: on a confirmed successful save the live file content equals the
raw text of exactly the selected lines in file order joined by single
newlines with no extra trailing newline, the in-memory original content is
then set to that same output, and on any failure (no confirmation or either
write failing) the in-memory original content is unchanged. -/
theorem C3_save_output (st : ManagerState) (sto : Storage) (bk : String) :
    (saveChanges true true true bk st sto).2.1.live =
      joinSep "\n" ((st.lines.filter (fun l => l.selected)).map (fun l => l.line))
  ∧ (saveChanges true true true bk st sto).1.originalContent =
      joinSep "\n" ((st.lines.filter (fun l => l.selected)).map (fun l => l.line))
  ∧ (saveChanges true true true bk st sto).2.2 = true
  ∧ (∀ confirm backupOk liveOk : Bool, (confirm && backupOk && liveOk) = false →
      (saveChanges confirm backupOk liveOk bk st sto).1.originalContent =
        st.originalContent) := by
  refine ⟨by simp [saveChanges], by simp [saveChanges], by simp [saveChanges], ?_⟩
  intro c b l h
  cases c <;> cases b <;> cases l <;> simp_all [saveChanges]

/-- Witness for C3_save_output at a concrete failed save. -/
theorem C3_save_output_witness :
    ((false && true && true) = false)
  ∧ (saveChanges false true true "b" (freshState jsonParseEx "x")
      { live := "x", backups := [] }).1.originalContent =
      (freshState jsonParseEx "x").originalContent :=
  ⟨rfl, (C3_save_output (freshState jsonParseEx "x") { live := "x", backups := [] }
      "b").2.2.2 false true true rfl⟩

/-- Claim C4 counterexample: the line consisting of the JSON value 1 is
non-blank, parses successfully and has none of the recognized content fields,
yet its previewText is the present empty string rather than absent. -/
theorem C4_preview_counterexample :
    isBlank "1" = false
  ∧ jsonParseEx "1" = some (.num 1)
  ∧ (parseLine jsonParseEx 0 "1").content = some ""
  ∧ (parseLine jsonParseEx 0 "1").content ≠ none :=
  ⟨by decide, rfl, rfl, by decide⟩

/-- Claim C4 (amended): for every non-blank line parsing to a non-null value
with none of the recognized content shapes (no top-level string content, no
nested string content, no nested array content, and a falsy nested content
field), the previewText is present and equal to the empty string, not absent:
the extraction initializes it to the empty string and always assigns it. -/
theorem C4_preview_amended (jp : String → Option JSVal) (line : String) (i : Nat) (v : JSVal)
    (hb : isBlank line = false) (hp : jp line = some v) (hn : isNull v = false)
    (h1 : isStrO (propOf v "content") = false)
    (h2 : isStrO (optChain (propOf v "message") "content") = false)
    (h3 : isArrO (optChain (propOf v "message") "content") = false)
    (h4 : truthyO (optChain (propOf v "message") "content") = false) :
    (parseLine jp i line).content = some "" := by
  have hec := extractContent_default v h1 h2 h3 h4
  have hpj : processJson v = .ok (extractKind v, "") := by
    unfold processJson
    simp [hn, hec]
  rw [(parseLine_parsed jp i line v hb hp).2.1, hpj]

/-- Witness for C4_preview_amended at the concrete line holding the JSON
value 1. -/
theorem C4_preview_amended_witness :
    isNull (JSVal.num 1) = false ∧ (parseLine jsonParseEx 0 "1").content = some "" :=
  ⟨rfl, C4_preview_amended jsonParseEx "1" 0 (.num 1) (by decide) rfl rfl rfl rfl rfl rfl⟩

/-- Claim C5 counterexample: an object with a present top-level type field
whose value is the empty string does not get that value as its recordKind:
the empty string is falsy, so the extraction falls through to the unknown
fallback rather than honouring the present field. -/
theorem C5_kind_counterexample :
    jsonParseEx "\x7b\"type\":\"\"\x7d" = some (.obj [("type", .str "")])
  ∧ (parseLine jsonParseEx 0 "\x7b\"type\":\"\"\x7d").type = some (.str "unknown")
  ∧ (parseLine jsonParseEx 0 "\x7b\"type\":\"\"\x7d").type ≠ some (.str "") := by
  refine ⟨rfl, rfl, fun h => ?_⟩
  have h2 : some (JSVal.str "unknown") = some (JSVal.str "") :=
    (rfl : some (JSVal.str "unknown") =
      (parseLine jsonParseEx 0 "\x7b\"type\":\"\"\x7d").type).trans h
  injection h2 with h3
  injection h3 with h4
  exact absurd h4 (by decide)

/-- Claim C5 (amended): for a line parsing as a JSON object (that does not hit
the throwing content-array case) the recordKind is the first TRUTHY candidate
among the top-level type field, the nested message type field and the nested
message role field, with the literal unknown as fallback: a present but falsy
field (empty string, 0, false, null) is skipped, not honoured. -/
theorem C5_kind_amended (jp : String → Option JSVal) (line : String) (i : Nat)
    (fs : List (String × JSVal))
    (hb : isBlank line = false) (hp : jp line = some (.obj fs))
    (ha : contentArrayNull (.obj fs) = false) :
    (parseLine jp i line).type = some (extractKind (.obj fs))
  ∧ (∀ v, propOf (.obj fs) "type" = some v → v.truthy = true → extractKind (.obj fs) = v)
  ∧ (∀ v, truthyO (propOf (.obj fs) "type") = false →
      optChain (propOf (.obj fs) "message") "type" = some v → v.truthy = true →
      extractKind (.obj fs) = v)
  ∧ (∀ v, truthyO (propOf (.obj fs) "type") = false →
      truthyO (optChain (propOf (.obj fs) "message") "type") = false →
      optChain (propOf (.obj fs) "message") "role" = some v → v.truthy = true →
      extractKind (.obj fs) = v)
  ∧ (truthyO (propOf (.obj fs) "type") = false →
      truthyO (optChain (propOf (.obj fs) "message") "type") = false →
      truthyO (optChain (propOf (.obj fs) "message") "role") = false →
      extractKind (.obj fs) = .str "unknown") := by
  refine ⟨?_, ?_, ?_, ?_, ?_⟩
  · obtain ⟨c, hc⟩ := processJson_ok (.obj fs) rfl ha
    rw [(parseLine_parsed jp i line (.obj fs) hb hp).1, hc]
  · intro v hv htr
    unfold extractKind jsOr
    simp [hv, truthyO, htr]
  · intro v h0 hv htr
    simp only [extractKind, jsOr]
    rw [hv, h0]
    simp [truthyO, htr]
  · intro v h0 h1 hv htr
    simp only [extractKind, jsOr]
    rw [hv, h0]
    simp only [Bool.false_eq_true, if_false]
    rw [h1]
    simp [truthyO, htr]
  · intro h0 h1 h2
    simp only [extractKind, jsOr]
    rw [h0]
    simp only [Bool.false_eq_true, if_false]
    rw [h1]
    simp only [Bool.false_eq_true, if_false]
    rcases hmr : optChain (propOf (JSVal.obj fs) "message") "role" with _ | v
    · rfl
    · rw [hmr] at h2
      simp only [truthyO] at h2
      simp [h2]

/-- Witness for C5_kind_amended at a concrete object line with a truthy
top-level type field. -/
theorem C5_kind_amended_witness :
    (parseLine jsonParseEx 0 "\x7b\"type\":\"user\"\x7d").type =
      some (extractKind (.obj [("type", JSVal.str "user")]))
  ∧ extractKind (JSVal.obj [("type", JSVal.str "user")]) = JSVal.str "user" :=
  ⟨(C5_kind_amended jsonParseEx "\x7b\"type\":\"user\"\x7d" 0 [("type", JSVal.str "user")]
      (by decide) rfl rfl).1,
   (C5_kind_amended jsonParseEx "\x7b\"type\":\"user\"\x7d" 0 [("type", JSVal.str "user")]
      (by decide) rfl rfl).2.1 (JSVal.str "user") rfl rfl⟩

/-- Claim C6 counterexample: the line null is non-blank and parses
successfully as the JSON value null, yet it is assigned no recordKind: the
property access on null throws a TypeError and the line is kept as opaque raw
text. -/
theorem C6_kind_counterexample :
    isBlank "null" = false
  ∧ jsonParseEx "null" = some .null
  ∧ (parseLine jsonParseEx 0 "null").type = none :=
  ⟨by decide, rfl, rfl⟩

/-- Claim C6 (amended): a non-blank, successfully parsing line is assigned a
recordKind (with the unknown fallback) exactly when the extraction does not
throw: the parsed value null, and any value whose nested message content
array holds a null element, yield no recordKind; every other parsed value
yields one. -/
theorem C6_kind_amended (jp : String → Option JSVal) (line : String) (i : Nat) (v : JSVal)
    (hb : isBlank line = false) (hp : jp line = some v) :
    (parseLine jp i line).type = none ↔
      (isNull v = true ∨ contentArrayNull v = true) := by
  rw [(parseLine_parsed jp i line v hb hp).1]
  cases hpj : processJson v with
  | error e =>
    cases e
    simp [(processJson_error_iff v).mp hpj]
  | ok kc =>
    simp only [reduceCtorEq, false_iff]
    intro hor
    have hh := (processJson_error_iff v).mpr hor
    rw [hh] at hpj
    cases hpj

/-- Witness for C6_kind_amended at the concrete null line. -/
theorem C6_kind_amended_witness :
    ((parseLine jsonParseEx 0 "null").type = none ↔
      (isNull JSVal.null = true ∨ contentArrayNull JSVal.null = true)) :=
  C6_kind_amended jsonParseEx "null" 0 .null (by decide) rfl

/-- Claim C7: setIndividualSelection sets a message line's selected flag to
membership of its index in the given set (all other fields unchanged) and
leaves every non-message line entirely unchanged, regardless of the set's
contents. -/
theorem C7_individual_scope (indices : List Nat) (lines : List SessionLine) (i : Nat)
    (l : SessionLine) (h : lines[i]? = some l) :
    (l.isMessage = true →
      (selectIndividual indices lines)[i]? =
        some { l with selected := indices.contains l.index })
  ∧ (l.isMessage = false → (selectIndividual indices lines)[i]? = some l) := by
  unfold selectIndividual
  rw [List.getElem?_map, h]
  constructor
  · intro hm; simp [hm]
  · intro hm; simp [hm]

/-- Witness for C7_individual_scope on a two-line session: the message line
gets deselected (its index 0 is not in the set) and the raw line is left
untouched. -/
theorem C7_individual_scope_witness :
    ((selectIndividual [5] [mkMsg, mkRaw])[0]? =
      some { mkMsg with selected := ([5] : List Nat).contains mkMsg.index })
  ∧ ((selectIndividual [5] [mkMsg, mkRaw])[1]? = some mkRaw) :=
  ⟨(C7_individual_scope [5] [mkMsg, mkRaw] 0 mkMsg rfl).1 rfl,
   (C7_individual_scope [5] [mkMsg, mkRaw] 1 mkRaw rfl).2 rfl⟩

/-- Claim C8: setSelectionForType sets selected to the supplied value on
exactly the lines whose recordKind is the string k (a line lacking a
recordKind, such as a blank or non-JSON line, is never matched), leaves every
other line fully unchanged and returns the number of matched lines. -/
theorem C8_type_selection (k : String) (value : Bool) (lines : List SessionLine) (i : Nat)
    (l : SessionLine) (h : lines[i]? = some l) :
    (selectByType k value lines).2 = (lines.filter (fun l => isTypeStr l.type k)).length
  ∧ (l.type = some (.str k) →
      (selectByType k value lines).1[i]? = some { l with selected := value })
  ∧ (l.type ≠ some (.str k) → (selectByType k value lines).1[i]? = some l)
  ∧ (l.type = none → (selectByType k value lines).1[i]? = some l) := by
  unfold selectByType
  refine ⟨rfl, ?_, ?_, ?_⟩
  · intro ht
    rw [List.getElem?_map, h]
    have hm : isTypeStr l.type k = true := (isTypeStr_iff l.type k).mpr ht
    simp [hm]
  · intro ht
    rw [List.getElem?_map, h]
    have hm : isTypeStr l.type k = false := by
      cases hx : isTypeStr l.type k with
      | true => exact absurd ((isTypeStr_iff l.type k).mp hx) ht
      | false => rfl
    simp [hm]
  · intro ht
    rw [List.getElem?_map, h]
    have hm : isTypeStr l.type k = false := by rw [ht]; rfl
    simp [hm]

/-- Witness for C8_type_selection on a two-line session: the user line is
matched and deselected, the raw line (no recordKind) is untouched. -/
theorem C8_type_selection_witness :
    ((selectByType "user" false [mkMsg, mkRaw]).2 =
      ([mkMsg, mkRaw].filter (fun l => isTypeStr l.type "user")).length)
  ∧ ((selectByType "user" false [mkMsg, mkRaw]).1[0]? =
      some { mkMsg with selected := false })
  ∧ ((selectByType "user" false [mkMsg, mkRaw]).1[1]? = some mkRaw) :=
  ⟨(C8_type_selection "user" false [mkMsg, mkRaw] 0 mkMsg rfl).1,
   (C8_type_selection "user" false [mkMsg, mkRaw] 0 mkMsg rfl).2.1 rfl,
   (C8_type_selection "user" false [mkMsg, mkRaw] 1 mkRaw rfl).2.2.2 rfl⟩

/-- Claim C9: toggleAll sets the selected flag to the given value on every
line of the session without exception, message or not, blank or not,
preserving length, order and every other field. -/
theorem C9_toggle_all (value : Bool) (lines : List SessionLine) (i : Nat) :
    (toggleAll value lines).length = lines.length
  ∧ (toggleAll value lines)[i]? = lines[i]?.map (fun l => { l with selected := value }) := by
  unfold toggleAll
  exact ⟨by simp, by simp [List.getElem?_map]⟩

/-- Claim C10: parsing yields exactly one SessionLine per split segment, that
is the number of line-break separators plus one, hence always at least one
line; the empty input yields exactly one line with empty raw text, selected
and not a message. -/
theorem C10_line_count (jp : String → Option JSVal) (content : String) :
    (initSession jp content).length = countSep content.data + 1
  ∧ 1 ≤ (initSession jp content).length
  ∧ initSession jp "" = [{ index := 0, line := "", type := none, content := none,
                           selected := true, isMessage := false }] := by
  have hlen : (initSession jp content).length = countSep content.data + 1 := by
    unfold initSession splitLines
    rw [mapWithIndex_length, List.length_map, splitLinesCh_length]
  exact ⟨hlen, by omega, rfl⟩
